import Mathlib

/-!
Shallow embedding of the `fastembed` Go package of cldmnky/fastembed-go-bindings
(`fastembed/fastembed.go`, with the C boundary of `include/fastembed.h`).

Modelling conventions:
* C `float` values are only copied by the wrapper (never computed with), so they
  are carried by the abstract scalar type `Scalar := Int`.
* C pointers-to-arrays are modelled as functions `Nat → _` (unbounded memory)
  together with an explicit `len`, exactly as the header describes the structs;
  the Go wrapper reads exactly `len` cells of each array.
* A Go call that can `panic` (the wrapper takes `&slice[0]` of a possibly empty
  slice) returns a `GoResult` with a distinguished `panics` outcome; normal Go
  `(value, error)` returns are `GoResult.ret`.
* The native Rust library (`rust/src/lib.rs`, not part of the examined sources)
  is passed in as an explicit function argument `native`; definitions whose doc
  comment starts with `Modelled from the spec:` reconstruct its behaviour from
  the specification.
-/

/-- C float values as marshalled by the wrapper; the Go code only copies them,
so an abstract integer carrier is a faithful model of the data flow. -/
abbrev Scalar := Int

/-- The C `FastEmbedError` struct of `include/fastembed.h`: only a message. -/
structure CError where
  message : String
deriving Repr, DecidableEq

/-- The Go `Error` struct of `fastembed.go:17-19`: only a message string. -/
structure GoError where
  message : String
deriving Repr, DecidableEq

/-- Embedding of `newError` (`fastembed.go:26-32`): a nil C error pointer maps
to a nil Go error, otherwise the C message is copied into a Go `Error`
(the `fastembed_error_free` call has no value-level effect). -/
def newError : Option CError → Option GoError
  | none => none
  | some c => some ⟨c.message⟩

/-- Outcome of a Go call: either a runtime panic, or a normal Go
`(value, error)` return pair. -/
inductive GoResult (ρ : Type) where
  | panics : GoResult ρ
  | ret (val : Option ρ) (err : Option GoError) : GoResult ρ
deriving DecidableEq

/-- A Go call outcome instrumented with whether the native backend entry point
was invoked during the call. -/
structure GoCall (ρ : Type) where
  result : GoResult ρ
  nativeCalled : Bool
deriving DecidableEq

/-- The C `FloatArray` struct: a data pointer and a length. -/
structure FloatArrayC where
  len : Nat
  data : Nat → Scalar

/-- The C `FloatArrayVec` struct: an array of `FloatArray` and a length. -/
structure FloatArrayVec where
  len : Nat
  arrays : Nat → FloatArrayC

/-- The C `SparseEmbeddingC` struct: one shared length, an index pointer and a
value pointer. -/
structure SparseEmbeddingC where
  len : Nat
  indices : Nat → Nat
  values : Nat → Scalar

/-- The C `SparseEmbeddingVec` struct. -/
structure SparseEmbeddingVec where
  len : Nat
  embeddings : Nat → SparseEmbeddingC

/-- The C `RerankResultC` struct; the possibly-null `char* document` is an
`Option String`. -/
structure RerankResultC where
  index : Nat
  score : Scalar
  document : Option String

/-- The C `RerankResultVec` struct. -/
structure RerankResultVec where
  len : Nat
  results : Nat → RerankResultC

/-- The Go `SparseEmbedding` struct (`fastembed.go:111-114`). -/
structure SparseEmbedding where
  Indices : List Nat
  Values : List Scalar
deriving Repr, DecidableEq

/-- The Go `RerankResult` struct (`fastembed.go:278-282`); `Document` defaults
to the empty string (Go zero value) when the C `document` pointer is null. -/
structure RerankResult where
  Index : Nat
  Score : Scalar
  Document : String
deriving Repr, DecidableEq

/-- The Go `TextEmbedding` struct: a possibly-nil native handle pointer,
modelled as an optional opaque id. -/
structure TextEmbedding where
  handle : Option Nat
deriving Repr, DecidableEq

/-- The Go `SparseTextEmbedding` struct. -/
structure SparseTextEmbedding where
  handle : Option Nat
deriving Repr, DecidableEq

/-- The Go `ImageEmbedding` struct. -/
structure ImageEmbedding where
  handle : Option Nat
deriving Repr, DecidableEq

/-- The Go `TextRerank` struct. -/
structure TextRerank where
  handle : Option Nat
deriving Repr, DecidableEq

/-- Embedding of `NewTextEmbedding` (`fastembed.go:40-58`) as a function of the
native constructor outputs (returned handle pointer and written error pointer):
a nil native handle yields `(nil, newError(cErr))`, otherwise the handle is
wrapped and the error output is nil. The model-name marshalling and the
finalizer registration have no effect on the returned pair and are elided. -/
def NewTextEmbedding (nativeHandle : Option Nat) (cErr : Option CError) :
    Option TextEmbedding × Option GoError :=
  match nativeHandle with
  | none => (none, newError cErr)
  | some h => (some ⟨some h⟩, none)

/-- Embedding of `NewSparseTextEmbedding` (`fastembed.go:122-140`), same shape
as `NewTextEmbedding`. -/
def NewSparseTextEmbedding (nativeHandle : Option Nat) (cErr : Option CError) :
    Option SparseTextEmbedding × Option GoError :=
  match nativeHandle with
  | none => (none, newError cErr)
  | some h => (some ⟨some h⟩, none)

/-- Embedding of `NewImageEmbedding` (`fastembed.go:207-225`), same shape. -/
def NewImageEmbedding (nativeHandle : Option Nat) (cErr : Option CError) :
    Option ImageEmbedding × Option GoError :=
  match nativeHandle with
  | none => (none, newError cErr)
  | some h => (some ⟨some h⟩, none)

/-- Embedding of `NewTextRerank` (`fastembed.go:290-308`), same shape. -/
def NewTextRerank (nativeHandle : Option Nat) (cErr : Option CError) :
    Option TextRerank × Option GoError :=
  match nativeHandle with
  | none => (none, newError cErr)
  | some h => (some ⟨some h⟩, none)

/-- Embedding of `TextEmbedding.Close` (`fastembed.go:103-108`): when the handle
is non-nil the native free function is invoked (second component `true`) and the
handle field becomes nil; otherwise nothing happens. -/
def TextEmbedding.Close (te : TextEmbedding) : TextEmbedding × Bool :=
  match te.handle with
  | some _ => (⟨none⟩, true)
  | none => (te, false)

/-- Embedding of `SparseTextEmbedding.Close` (`fastembed.go:194-199`). -/
def SparseTextEmbedding.Close (ste : SparseTextEmbedding) : SparseTextEmbedding × Bool :=
  match ste.handle with
  | some _ => (⟨none⟩, true)
  | none => (ste, false)

/-- Embedding of `ImageEmbedding.Close` (`fastembed.go:270-275`). -/
def ImageEmbedding.Close (ie : ImageEmbedding) : ImageEmbedding × Bool :=
  match ie.handle with
  | some _ => (⟨none⟩, true)
  | none => (ie, false)

/-- Embedding of `TextRerank.Close` (`fastembed.go:359-364`). -/
def TextRerank.Close (tr : TextRerank) : TextRerank × Bool :=
  match tr.handle with
  | some _ => (⟨none⟩, true)
  | none => (tr, false)

/-- The Go loop of `fastembed.go:87-97`: read `v.len` rows, and for row `i`
read `(v.arrays i).len` floats. -/
def convertFloatArrayVec (v : FloatArrayVec) : List (List Scalar) :=
  (List.range v.len).map fun i =>
    (List.range (v.arrays i).len).map fun j => (v.arrays i).data j

/-- The Go loop of `fastembed.go:172-188` for one entry: both the `Indices` and
the `Values` slices are allocated and filled with exactly `c.len` elements. -/
def convertSparseOne (c : SparseEmbeddingC) : SparseEmbedding :=
  ⟨(List.range c.len).map c.indices, (List.range c.len).map c.values⟩

/-- The Go loop of `fastembed.go:345-353` for one entry: index and score are
copied; `Document` is set from the C string only when it is non-null and
otherwise keeps the Go zero value `""`. -/
def convertRerankOne (c : RerankResultC) : RerankResult :=
  ⟨c.index, c.score, match c.document with | some s => s | none => ""⟩

/-- Embedding of `TextEmbedding.Embed` (`fastembed.go:61-100`).
Control flow in source order: a nil handle returns the `"TextEmbedding handle
is nil"` error (line 62-64) without calling the native library; then the
argument expression `&cTexts[0]` (line 76) panics when `texts` is empty, still
before the native call; otherwise the native entry point is invoked, a nil
result vector is turned into `(nil, newError(cErr))`, and a non-nil vector is
converted row by row. -/
def TextEmbedding.Embed (te : TextEmbedding) (texts : List String) (batchSize : Nat)
    (native : List String → Nat → Option FloatArrayVec × Option CError) :
    GoCall (List (List Scalar)) :=
  match te.handle with
  | none => ⟨.ret none (some ⟨"TextEmbedding handle is nil"⟩), false⟩
  | some _ =>
    if texts.isEmpty then ⟨.panics, false⟩
    else
      match native texts batchSize with
      | (none, cErr) => ⟨.ret none (newError cErr), true⟩
      | (some result, _) => ⟨.ret (some (convertFloatArrayVec result)) none, true⟩

/-- Embedding of `SparseTextEmbedding.Embed` (`fastembed.go:143-191`), same
control flow as `TextEmbedding.Embed` with the sparse conversion loop. -/
def SparseTextEmbedding.Embed (ste : SparseTextEmbedding) (texts : List String)
    (batchSize : Nat)
    (native : List String → Nat → Option SparseEmbeddingVec × Option CError) :
    GoCall (List SparseEmbedding) :=
  match ste.handle with
  | none => ⟨.ret none (some ⟨"SparseTextEmbedding handle is nil"⟩), false⟩
  | some _ =>
    if texts.isEmpty then ⟨.panics, false⟩
    else
      match native texts batchSize with
      | (none, cErr) => ⟨.ret none (newError cErr), true⟩
      | (some result, _) =>
        ⟨.ret (some ((List.range result.len).map fun i =>
          convertSparseOne (result.embeddings i))) none, true⟩

/-- Embedding of `TextRerank.Rerank` (`fastembed.go:311-356`).
A nil handle returns the `"TextRerank handle is nil"` error; the argument
expression `&cDocs[0]` (line 330) panics when `documents` is empty, before the
native call; otherwise the native rerank is invoked and its result vector is
converted entry by entry. -/
def TextRerank.Rerank (tr : TextRerank) (query : String) (documents : List String)
    (returnDocuments : Bool) (batchSize : Nat)
    (native : String → List String → Bool → Nat → Option RerankResultVec × Option CError) :
    GoCall (List RerankResult) :=
  match tr.handle with
  | none => ⟨.ret none (some ⟨"TextRerank handle is nil"⟩), false⟩
  | some _ =>
    if documents.isEmpty then ⟨.panics, false⟩
    else
      match native query documents returnDocuments batchSize with
      | (none, cErr) => ⟨.ret none (newError cErr), true⟩
      | (some result, _) =>
        ⟨.ret (some ((List.range result.len).map fun i =>
          convertRerankOne (result.results i))) none, true⟩

/-- Contiguous chunks of size `b` (last chunk may be shorter); the degenerate
chunk size `0` returns the whole list as one chunk so that the function is
total, and is never reached with a positive effective batch size. -/
def chunks : Nat → List β → List (List β)
  | _, [] => []
  | 0, x :: xs => [x :: xs]
  | b + 1, x :: xs => (x :: xs).take (b + 1) :: chunks (b + 1) ((x :: xs).drop (b + 1))
termination_by _ l => l.length
decreasing_by
  simp only [List.drop, List.length_drop, List.length_cons]
  omega

/-- Modelled from the spec: the family default batch size used when the caller
passes `0` (spec section 4.5: a fixed positive, family-specific default in the
tens-to-hundreds range; the concrete value is immaterial to every theorem
below, only its positivity matters). Stands in for the default applied inside
`rust/src/lib.rs` / fastembed-rs, which are not under the examined sources. -/
def defaultBatchSize : Nat := 256

/-- Modelled from the spec: the batching controller of the native library
(spec section 4.5, standing in for `rust/src/lib.rs` / fastembed-rs, not under
the examined sources): the input list is split into contiguous chunks of the
effective batch size (`0` selects the family default), each chunk is processed
by the per-item model function `f` (deterministic per item, spec sections
4.3-4.4), and the per-chunk outputs are concatenated in chunk order. -/
def specBatchedMap (f : String → β) (batchSize : Nat) (inputs : List String) : List β :=
  ((chunks (if batchSize = 0 then defaultBatchSize else batchSize) inputs).map
    (List.map f)).flatten

/-- Marshalling of one dense row into the C `FloatArray` layout. -/
def toFloatArrayC (row : List Scalar) : FloatArrayC :=
  ⟨row.length, fun j => row.getD j 0⟩

/-- Marshalling of a list of dense rows into the C `FloatArrayVec` layout. -/
def toFloatArrayVec (rows : List (List Scalar)) : FloatArrayVec :=
  ⟨rows.length, fun i => toFloatArrayC (rows.getD i [])⟩

/-- Modelled from the spec: the native `fastembed_text_embedding_embed` entry
point (`rust/src/lib.rs`, not under the examined sources), parameterised by the
per-input embedding function `f` of the loaded model: it batches the inputs,
embeds them, marshals the rows into a `FloatArrayVec`, and reports no error. -/
def specNativeTextEmbed (f : String → List Scalar) :
    List String → Nat → Option FloatArrayVec × Option CError :=
  fun texts batchSize => (some (toFloatArrayVec (specBatchedMap f batchSize texts)), none)

/-- Marshalling of one sparse row (a list of index-value pairs) into the C
`SparseEmbeddingC` layout: one shared length, split index and value arrays. -/
def toSparseEmbeddingC (pairs : List (Nat × Scalar)) : SparseEmbeddingC :=
  ⟨pairs.length, fun j => (pairs.map Prod.fst).getD j 0,
    fun j => (pairs.map Prod.snd).getD j 0⟩

/-- Marshalling of a list of sparse rows into the C `SparseEmbeddingVec`
layout. -/
def toSparseEmbeddingVec (rows : List (List (Nat × Scalar))) : SparseEmbeddingVec :=
  ⟨rows.length, fun i => toSparseEmbeddingC (rows.getD i [])⟩

/-- Modelled from the spec: the native `fastembed_sparse_text_embedding_embed`
entry point (`rust/src/lib.rs`, not under the examined sources), parameterised
by the per-input sparse embedding function `sf` (producing the index-value
pairs of spec section 3), batching exactly as the dense path does. -/
def specNativeSparseEmbed (sf : String → List (Nat × Scalar)) :
    List String → Nat → Option SparseEmbeddingVec × Option CError :=
  fun texts batchSize =>
    (some (toSparseEmbeddingVec (specBatchedMap sf batchSize texts)), none)

/-- Stable descending insertion step: `r` moves past entries with strictly
greater score and is placed before the first entry whose score is not greater,
so among equal scores earlier-inserted entries stay in front. -/
def insertByScoreDesc (r : RerankResultC) : List RerankResultC → List RerankResultC
  | [] => [r]
  | x :: xs =>
    if r.score < x.score then x :: insertByScoreDesc r xs else r :: x :: xs

/-- Stable descending insertion sort by score: each element is inserted into
the sorted suffix built from the elements after it, so original relative order
is kept among equal scores. -/
def sortByScoreDesc : List RerankResultC → List RerankResultC
  | [] => []
  | x :: xs => insertByScoreDesc x (sortByScoreDesc xs)

/-- Marshalling of a list of rerank entries into the C `RerankResultVec`
layout. -/
def toRerankResultVec (rows : List RerankResultC) : RerankResultVec :=
  ⟨rows.length, fun i => rows.getD i ⟨0, 0, none⟩⟩

/-- Modelled from the spec: the native `fastembed_text_rerank_rerank` entry
point (`rust/src/lib.rs`, not under the examined sources), parameterised by the
scoring function `scorer` of the loaded cross-encoder: it scores every
(query, document) pair, collects (index, score) entries, stable-sorts them by
score descending (spec sections 3 and 4.6), and attaches the original document
text exactly when `returnDocuments` is set. The batch size only controls how
the score computations are grouped and does not affect the collected scores,
so it is not observable in the result (spec section 4.5). This definition is
the collection phase: one entry per document, in original input order, with
the document text attached exactly when `returnDocuments` is set. -/
def rerankItems (scorer : String → String → Scalar) (query : String)
    (docs : List String) (returnDocuments : Bool) : List RerankResultC :=
  (List.range docs.length).map fun i =>
    RerankResultC.mk i (scorer query (docs.getD i ""))
      (if returnDocuments then some (docs.getD i "") else none)

/-- Modelled from the spec: the native `fastembed_text_rerank_rerank` entry
point itself: collect the scored entries, stable-sort them by score
descending, marshal them into a `RerankResultVec`, and report no error. -/
def specNativeRerank (scorer : String → String → Scalar) :
    String → List String → Bool → Nat → Option RerankResultVec × Option CError :=
  fun query docs returnDocuments _batchSize =>
    (some (toRerankResultVec
      (sortByScoreDesc (rerankItems scorer query docs returnDocuments))), none)

/-- Modelled from the spec: the error taxonomy of spec section 7; the kinds a
structured engine error would be discriminated by. -/
inductive ErrorKind where
  | modelNotFound
  | downloadFailed
  | corruptArtifact
  | tokenizationFailure
  | imageDecodeFailure
  | fileNotFound
  | inferenceFailure
  | handleClosed
  | invalidArgument
deriving Repr, DecidableEq

/-- Modelled from the spec: a native-side engine error before it crosses the C
boundary, carrying both the kind discriminator of spec section 7 and a
human-readable message. -/
structure NativeError where
  kind : ErrorKind
  message : String
deriving Repr, DecidableEq

/-- Modelled from the spec and the architecture document (docs, error-handling
flow): the Rust layer converts an engine error to a C string of its message
(`CString::new(error.to_string())`) and hands over a `FastEmbedError`, so only
the message survives the boundary. -/
def nativeToC (e : NativeError) : CError := ⟨e.message⟩

/-- The relation that holds between two rerank entries exactly when the first
must precede the second in a stable descending sort of entries listed in
ascending original order: strictly greater score, or equal score and smaller
original index. -/
def rankedBefore (a b : RerankResultC) : Prop :=
  b.score < a.score ∨ (a.score = b.score ∧ a.index < b.index)

theorem range_map_getD (l : List γ) (d : γ) :
    (List.range l.length).map (fun i => l.getD i d) = l := by
  apply List.ext_getElem
  · simp
  · intro i h1 h2
    have hi : i < l.length := h2
    simp [List.getD_eq_getElem, hi]

theorem chunks_flatten (b : Nat) (l : List β) : (chunks b l).flatten = l := by
  induction b, l using chunks.induct with
  | case1 b => simp [chunks]
  | case2 x xs => simp [chunks]
  | case3 b x xs ih =>
    simp only [List.drop_succ_cons] at ih
    simp [chunks, ih, List.take_append_drop]

theorem specBatchedMap_eq_map (f : String → β) (b : Nat) (inputs : List String) :
    specBatchedMap f b inputs = inputs.map f := by
  unfold specBatchedMap
  rw [← List.map_flatten, chunks_flatten]

theorem marshal_dense (rows : List (List Scalar)) :
    convertFloatArrayVec (toFloatArrayVec rows) = rows := by
  apply List.ext_getElem
  · simp [convertFloatArrayVec, toFloatArrayVec]
  · intro i h1 h2
    have hi : i < rows.length := h2
    have hgd : rows.getD i [] = rows[i] := List.getD_eq_getElem _ _ hi
    simp only [convertFloatArrayVec, toFloatArrayVec, toFloatArrayC,
      List.getElem_map, List.getElem_range, hgd]
    exact range_map_getD rows[i] 0

theorem convertSparseOne_marshal (p : List (Nat × Scalar)) :
    convertSparseOne (toSparseEmbeddingC p)
      = ⟨p.map Prod.fst, p.map Prod.snd⟩ := by
  unfold convertSparseOne toSparseEmbeddingC
  congr 1
  · simpa [List.length_map] using range_map_getD (p.map Prod.fst) 0
  · simpa [List.length_map] using range_map_getD (p.map Prod.snd) 0

theorem marshal_sparse (rows : List (List (Nat × Scalar))) :
    (List.range (toSparseEmbeddingVec rows).len).map
      (fun i => convertSparseOne ((toSparseEmbeddingVec rows).embeddings i))
    = rows.map fun p => SparseEmbedding.mk (p.map Prod.fst) (p.map Prod.snd) := by
  apply List.ext_getElem
  · simp [toSparseEmbeddingVec]
  · intro i h1 h2
    have hi : i < rows.length := by simpa [toSparseEmbeddingVec] using h1
    have hgd : rows[i]? = some rows[i] := List.getElem?_eq_getElem hi
    simp [toSparseEmbeddingVec, hgd, convertSparseOne_marshal]

theorem marshal_rerank (rows : List RerankResultC) :
    (List.range (toRerankResultVec rows).len).map
      (fun i => convertRerankOne ((toRerankResultVec rows).results i))
    = rows.map convertRerankOne := by
  apply List.ext_getElem
  · simp [toRerankResultVec]
  · intro i h1 h2
    have hi : i < rows.length := by simpa [toRerankResultVec] using h1
    have hgd : rows[i]? = some rows[i] := List.getElem?_eq_getElem hi
    simp [toRerankResultVec, hgd]

theorem insertByScoreDesc_perm (r : RerankResultC) (l : List RerankResultC) :
    (insertByScoreDesc r l).Perm (r :: l) := by
  induction l with
  | nil => exact List.Perm.refl _
  | cons x xs ih =>
    unfold insertByScoreDesc
    by_cases h : r.score < x.score
    · rw [if_pos h]
      exact (ih.cons x).trans (List.Perm.swap r x xs)
    · rw [if_neg h]

theorem sortByScoreDesc_perm (l : List RerankResultC) :
    (sortByScoreDesc l).Perm l := by
  induction l with
  | nil => exact List.Perm.refl _
  | cons x xs ih =>
    exact (insertByScoreDesc_perm x (sortByScoreDesc xs)).trans (ih.cons x)

theorem insertByScoreDesc_pairwise {r : RerankResultC} {l : List RerankResultC}
    (hl : l.Pairwise rankedBefore) (hr : ∀ y ∈ l, r.index < y.index) :
    (insertByScoreDesc r l).Pairwise rankedBefore := by
  induction l with
  | nil => simp [insertByScoreDesc]
  | cons x xs ih =>
    rw [List.pairwise_cons] at hl
    obtain ⟨hx, hxs⟩ := hl
    unfold insertByScoreDesc
    by_cases h : r.score < x.score
    · rw [if_pos h, List.pairwise_cons]
      refine ⟨?_, ih hxs fun y hy => hr y (List.mem_cons_of_mem x hy)⟩
      intro z hz
      rcases List.mem_cons.1 ((insertByScoreDesc_perm r xs).mem_iff.1 hz) with hzr | hzxs
      · subst hzr
        exact Or.inl h
      · exact hx z hzxs
    · rw [if_neg h, List.pairwise_cons]
      have hxr : x.score ≤ r.score := not_lt.1 h
      refine ⟨?_, List.pairwise_cons.2 ⟨hx, hxs⟩⟩
      intro z hz
      rcases List.mem_cons.1 hz with hzx | hzxs
      · subst hzx
        rcases lt_or_eq_of_le hxr with hlt | heq
        · exact Or.inl hlt
        · exact Or.inr ⟨heq.symm, hr z (List.mem_cons_self z xs)⟩
      · rcases hx z hzxs with hlt | ⟨heq, _⟩
        · exact Or.inl (lt_of_lt_of_le hlt hxr)
        · rcases lt_or_eq_of_le hxr with hlt2 | heq2
          · exact Or.inl (heq ▸ hlt2)
          · exact Or.inr ⟨heq2 ▸ heq, hr z (List.mem_cons_of_mem x hzxs)⟩

theorem sortByScoreDesc_pairwise {l : List RerankResultC}
    (hl : l.Pairwise fun a b => a.index < b.index) :
    (sortByScoreDesc l).Pairwise rankedBefore := by
  induction l with
  | nil => simp [sortByScoreDesc]
  | cons x xs ih =>
    rw [List.pairwise_cons] at hl
    exact insertByScoreDesc_pairwise (ih hl.2)
      fun y hy => hl.1 y ((sortByScoreDesc_perm xs).mem_iff.1 hy)

theorem isEmpty_false_of_ne_nil {l : List γ} (h : l ≠ []) : l.isEmpty = false := by
  cases l with
  | nil => exact absurd rfl h
  | cons a t => rfl

theorem rerankItems_pairwise_index (scorer : String → String → Scalar)
    (query : String) (docs : List String) (rd : Bool) :
    (rerankItems scorer query docs rd).Pairwise fun a b => a.index < b.index := by
  rw [rerankItems, List.pairwise_map]
  exact (List.pairwise_lt_range docs.length).imp fun h => h

theorem rerankItems_map_index (scorer : String → String → Scalar)
    (query : String) (docs : List String) (rd : Bool) :
    (rerankItems scorer query docs rd).map RerankResultC.index
      = List.range docs.length := by
  apply List.ext_getElem
  · simp [rerankItems]
  · intro i h1 h2
    simp [rerankItems]

/-- C1 (code bug): on an open handle, `Embed` with an empty input list does
not return an empty result with a nil error; the Go code evaluates
`&cTexts[0]` on an empty slice and panics with an index-out-of-range runtime
error before the native backend embed function is reached (`nativeCalled`
stays `false` only because the call dies first), for every backend and batch
size. The same slip is in `SparseTextEmbedding.Embed`. -/
theorem C1_empty_embed_panics (h0 : Nat) (batchSize : Nat)
    (nd : List String → Nat → Option FloatArrayVec × Option CError)
    (ns : List String → Nat → Option SparseEmbeddingVec × Option CError) :
    TextEmbedding.Embed ⟨some h0⟩ [] batchSize nd = ⟨.panics, false⟩
    ∧ SparseTextEmbedding.Embed ⟨some h0⟩ [] batchSize ns = ⟨.panics, false⟩ :=
  ⟨rfl, rfl⟩

/-- C2: on an open handle with a non-empty input list, against the
spec-modelled native backend whose per-input embedding has the declared
dimension, `Embed` returns one output vector per input and every output
vector has length equal to the model dimension. -/
theorem C2_embed_shape (te : TextEmbedding) (h0 : Nat) (hh : te.handle = some h0)
    (texts : List String) (hne : texts ≠ []) (batchSize : Nat) (dim : Nat)
    (f : String → List Scalar) (hf : ∀ s, (f s).length = dim) :
    ∃ rows : List (List Scalar),
      (te.Embed texts batchSize (specNativeTextEmbed f)).result = .ret (some rows) none
      ∧ rows.length = texts.length ∧ ∀ r ∈ rows, r.length = dim := by
  refine ⟨texts.map f, ?_, by simp, ?_⟩
  · obtain ⟨oh⟩ := te
    cases oh with
    | none => cases hh
    | some hv =>
      simp [TextEmbedding.Embed, isEmpty_false_of_ne_nil hne, specNativeTextEmbed,
        specBatchedMap_eq_map, marshal_dense]
  · intro r hr
    obtain ⟨s, _, rfl⟩ := List.mem_map.1 hr
    exact hf s

/-- C2 witness: a concrete open handle, one input, dimension two. -/
theorem C2_embed_shape_witness :
    ∃ rows : List (List Scalar),
      (TextEmbedding.Embed ⟨some 0⟩ ["a"] 0
        (specNativeTextEmbed fun _ => [1, 2])).result = .ret (some rows) none
      ∧ rows.length = (["a"] : List String).length ∧ ∀ r ∈ rows, r.length = 2 :=
  C2_embed_shape ⟨some 0⟩ 0 rfl ["a"] (by simp) 0 2 (fun _ => [1, 2]) fun _ => rfl

/-- C3 counterexample: a rerank call on an open handle with an empty document
list returns no sequence at all — the Go code panics at `&cDocs[0]` — so the
claimed permutation property of the returned sequence fails at n = 0. -/
theorem C3_empty_docs_counterexample :
    ¬ ∃ res : List RerankResult,
      (TextRerank.Rerank ⟨some 0⟩ "q" [] true 0
        (specNativeRerank fun _ _ => 0)).result = .ret (some res) none := by
  rintro ⟨res, h⟩
  exact GoResult.noConfusion h

/-- C3 (amended to non-empty document lists): on an open handle, against the
spec-modelled native reranker, the returned sequence carries each original
index in `{0, ..., n-1}` exactly once (its index image is a permutation of
`range n`) and is pairwise ordered by score descending with equal scores in
ascending original-index order, i.e. a stable descending sort. -/
theorem C3_rerank_perm_sorted_stable (tr : TextRerank) (h0 : Nat)
    (hh : tr.handle = some h0) (query : String) (docs : List String)
    (hne : docs ≠ []) (returnDocuments : Bool) (batchSize : Nat)
    (scorer : String → String → Scalar) :
    ∃ res : List RerankResult,
      (tr.Rerank query docs returnDocuments batchSize (specNativeRerank scorer)).result
        = .ret (some res) none
      ∧ (res.map RerankResult.Index).Perm (List.range docs.length)
      ∧ res.Pairwise fun a b =>
          b.Score < a.Score ∨ (a.Score = b.Score ∧ a.Index < b.Index) := by
  refine ⟨(sortByScoreDesc (rerankItems scorer query docs returnDocuments)).map
    convertRerankOne, ?_, ?_, ?_⟩
  · obtain ⟨oh⟩ := tr
    cases oh with
    | none => cases hh
    | some hv =>
      simp [TextRerank.Rerank, isEmpty_false_of_ne_nil hne, specNativeRerank,
        marshal_rerank]
  · rw [List.map_map]
    have hcomp : RerankResult.Index ∘ convertRerankOne = RerankResultC.index := rfl
    rw [hcomp]
    have h2 := (sortByScoreDesc_perm
      (rerankItems scorer query docs returnDocuments)).map RerankResultC.index
    rw [rerankItems_map_index] at h2
    exact h2
  · rw [List.pairwise_map]
    exact (sortByScoreDesc_pairwise
      (rerankItems_pairwise_index scorer query docs returnDocuments)).imp
      fun hab => hab

/-- C3 witness: a concrete open handle with two documents scored by length. -/
theorem C3_rerank_witness :
    ∃ res : List RerankResult,
      (TextRerank.Rerank ⟨some 0⟩ "q" ["a", "bb"] true 0
        (specNativeRerank fun _ d => (d.length : Int))).result = .ret (some res) none
      ∧ (res.map RerankResult.Index).Perm (List.range (["a", "bb"] : List String).length)
      ∧ res.Pairwise fun a b =>
          b.Score < a.Score ∨ (a.Score = b.Score ∧ a.Index < b.Index) :=
  C3_rerank_perm_sorted_stable ⟨some 0⟩ 0 rfl "q" ["a", "bb"] (by simp) true 0
    fun _ d => (d.length : Int)

/-- C4 counterexample: the error a closed-handle `Embed` returns is the very
same `Error` value (message-only, `"TextEmbedding handle is nil"`) that the
same wrapper would hand back for a native backend failure carrying that
message on an open handle; no function of the returned error can classify the
first as `HandleClosed` and the second as an inference failure, so the claim
that a closed handle yields a `HandleClosed` structured error fails. -/
theorem C4_handle_closed_counterexample :
    ((TextEmbedding.Embed ⟨none⟩ ["a"] 0 fun _ _ => (none, none)).result
      = .ret none (some ⟨"TextEmbedding handle is nil"⟩))
    ∧ ((TextEmbedding.Embed ⟨some 0⟩ ["a"] 0 fun _ _ =>
        (none, some ⟨"TextEmbedding handle is nil"⟩)).result
      = .ret none (some ⟨"TextEmbedding handle is nil"⟩))
    ∧ ¬ ∃ kindOf : GoError → ErrorKind,
        kindOf ⟨"TextEmbedding handle is nil"⟩ = ErrorKind.handleClosed
        ∧ kindOf ⟨"TextEmbedding handle is nil"⟩ = ErrorKind.inferenceFailure := by
  refine ⟨rfl, rfl, ?_⟩
  rintro ⟨kindOf, h1, h2⟩
  rw [h1] at h2
  exact ErrorKind.noConfusion h2

/-- C4 (amended): after `Close`, every `Embed` on the text-embedding handle
and every `Rerank` on the rerank handle returns a structured message-only
error (the respective `"... handle is nil"` message) instead of crashing, and
the native backend is not invoked, whatever the arguments and the backend. -/
theorem C4_closed_handle_rejects (te : TextEmbedding) (texts : List String)
    (bs1 : Nat) (nd : List String → Nat → Option FloatArrayVec × Option CError)
    (tr : TextRerank) (query : String) (docs : List String) (rd : Bool) (bs2 : Nat)
    (nr : String → List String → Bool → Nat → Option RerankResultVec × Option CError) :
    TextEmbedding.Embed (te.Close).1 texts bs1 nd
      = ⟨.ret none (some ⟨"TextEmbedding handle is nil"⟩), false⟩
    ∧ TextRerank.Rerank (tr.Close).1 query docs rd bs2 nr
      = ⟨.ret none (some ⟨"TextRerank handle is nil"⟩), false⟩ := by
  constructor
  · obtain ⟨oh⟩ := te
    cases oh <;> rfl
  · obtain ⟨oh⟩ := tr
    cases oh <;> rfl

/-- C5: `Close` is idempotent for all four handle types: a second `Close`
leaves the handle state unchanged and does not invoke the native free function
again (second component `false`). -/
theorem C5_close_idempotent (te : TextEmbedding) (ste : SparseTextEmbedding)
    (ie : ImageEmbedding) (tr : TextRerank) :
    TextEmbedding.Close (te.Close).1 = ((te.Close).1, false)
    ∧ SparseTextEmbedding.Close (ste.Close).1 = ((ste.Close).1, false)
    ∧ ImageEmbedding.Close (ie.Close).1 = ((ie.Close).1, false)
    ∧ TextRerank.Close (tr.Close).1 = ((tr.Close).1, false) := by
  refine ⟨?_, ?_, ?_, ?_⟩
  · obtain ⟨oh⟩ := te
    cases oh <;> rfl
  · obtain ⟨oh⟩ := ste
    cases oh <;> rfl
  · obtain ⟨oh⟩ := ie
    cases oh <;> rfl
  · obtain ⟨oh⟩ := tr
    cases oh <;> rfl

/-- C6: on an open handle with a non-empty input list, against the
spec-modelled native sparse backend whose per-input index lists are strictly
increasing, every returned sparse embedding has `Indices` and `Values` of
equal length (this part is forced by the Go conversion loop alone, which reads
the shared C length for both slices), and its `Indices` are sorted strictly
ascending and duplicate-free. -/
theorem C6_sparse_invariants (ste : SparseTextEmbedding) (h0 : Nat)
    (hh : ste.handle = some h0) (texts : List String) (hne : texts ≠ [])
    (batchSize : Nat) (sf : String → List (Nat × Scalar))
    (hs : ∀ s, ((sf s).map Prod.fst).Pairwise (· < ·)) :
    ∃ res : List SparseEmbedding,
      (ste.Embed texts batchSize (specNativeSparseEmbed sf)).result
        = .ret (some res) none
      ∧ ∀ e ∈ res, e.Indices.length = e.Values.length
          ∧ e.Indices.Pairwise (· < ·) ∧ e.Indices.Nodup := by
  refine ⟨(texts.map sf).map
    (fun p => SparseEmbedding.mk (p.map Prod.fst) (p.map Prod.snd)), ?_, ?_⟩
  · obtain ⟨oh⟩ := ste
    cases oh with
    | none => cases hh
    | some hv =>
      simp [SparseTextEmbedding.Embed, isEmpty_false_of_ne_nil hne,
        specNativeSparseEmbed, specBatchedMap_eq_map, marshal_sparse]
  · intro e he
    obtain ⟨p, hp, rfl⟩ := List.mem_map.1 he
    obtain ⟨s, hsmem, rfl⟩ := List.mem_map.1 hp
    exact ⟨by simp, hs s, (hs s).imp fun hab => Nat.ne_of_lt hab⟩

/-- C6 witness: a concrete open handle, one input, two index-value pairs. -/
theorem C6_sparse_invariants_witness :
    ∃ res : List SparseEmbedding,
      (SparseTextEmbedding.Embed ⟨some 0⟩ ["a"] 0
        (specNativeSparseEmbed fun _ => [(0, 2), (3, 5)])).result
        = .ret (some res) none
      ∧ ∀ e ∈ res, e.Indices.length = e.Values.length
          ∧ e.Indices.Pairwise (· < ·) ∧ e.Indices.Nodup :=
  C6_sparse_invariants ⟨some 0⟩ 0 rfl ["a"] (by simp) 0
    (fun _ => [(0, 2), (3, 5)]) fun _ => by simp

/-- C7: on an open handle with a non-empty document list, against the
spec-modelled native reranker, every returned entry carries the original
document text at its original index exactly when `returnDocuments` is `true`,
and carries the empty Go zero-value string when `returnDocuments` is
`false`. -/
theorem C7_document_iff (tr : TextRerank) (h0 : Nat) (hh : tr.handle = some h0)
    (query : String) (docs : List String) (hne : docs ≠ [])
    (returnDocuments : Bool) (batchSize : Nat)
    (scorer : String → String → Scalar) :
    ∃ res : List RerankResult,
      (tr.Rerank query docs returnDocuments batchSize (specNativeRerank scorer)).result
        = .ret (some res) none
      ∧ ∀ r ∈ res,
          (returnDocuments = true →
            r.Index < docs.length ∧ r.Document = docs.getD r.Index "")
          ∧ (returnDocuments = false → r.Document = "") := by
  refine ⟨(sortByScoreDesc (rerankItems scorer query docs returnDocuments)).map
    convertRerankOne, ?_, ?_⟩
  · obtain ⟨oh⟩ := tr
    cases oh with
    | none => cases hh
    | some hv =>
      simp [TextRerank.Rerank, isEmpty_false_of_ne_nil hne, specNativeRerank,
        marshal_rerank]
  · intro r hr
    obtain ⟨c, hc, rfl⟩ := List.mem_map.1 hr
    have hc2 : c ∈ rerankItems scorer query docs returnDocuments :=
      (sortByScoreDesc_perm _).mem_iff.1 hc
    rw [rerankItems] at hc2
    obtain ⟨i, hi, rfl⟩ := List.mem_map.1 hc2
    have hilt : i < docs.length := List.mem_range.1 hi
    constructor
    · intro hrd
      exact ⟨hilt, by simp [convertRerankOne, hrd]⟩
    · intro hrd
      simp [convertRerankOne, hrd]

/-- C7 witness: a concrete open handle with two documents, echoing on. -/
theorem C7_document_iff_witness :
    ∃ res : List RerankResult,
      (TextRerank.Rerank ⟨some 0⟩ "q" ["a", "bb"] true 0
        (specNativeRerank fun _ _ => 7)).result = .ret (some res) none
      ∧ ∀ r ∈ res,
          (true = true →
            r.Index < (["a", "bb"] : List String).length
            ∧ r.Document = (["a", "bb"] : List String).getD r.Index "")
          ∧ (true = false → r.Document = "") :=
  C7_document_iff ⟨some 0⟩ 0 rfl "q" ["a", "bb"] (by simp) true 0 fun _ _ => 7

/-- C8 counterexample: two native failures of different spec kinds
(`ModelNotFound` vs `DownloadFailed`) with the same message collapse to the
same Go error value on their way through the C boundary and `newError`, so no
function of the returned error can recover the two kinds; the returned errors
carry no kind discriminator. -/
theorem C8_no_kind_counterexample :
    newError (some (nativeToC ⟨ErrorKind.modelNotFound, "failed to load model"⟩))
      = newError (some (nativeToC ⟨ErrorKind.downloadFailed, "failed to load model"⟩))
    ∧ ¬ ∃ kindOf : GoError → ErrorKind,
        kindOf ⟨"failed to load model"⟩ = ErrorKind.modelNotFound
        ∧ kindOf ⟨"failed to load model"⟩ = ErrorKind.downloadFailed := by
  refine ⟨rfl, ?_⟩
  rintro ⟨kindOf, h1, h2⟩
  rw [h1] at h2
  exact ErrorKind.noConfusion h2

/-- C8 (amended): every error returned by the wrapper carries exactly a
human-readable message and nothing else — Go errors with equal messages are
equal values — and the boundary preserves the native message verbatim while
dropping its kind. -/
theorem C8_message_only :
    (∀ e1 e2 : GoError, e1.message = e2.message → e1 = e2)
    ∧ ∀ ne : NativeError, newError (some (nativeToC ne)) = some ⟨ne.message⟩ := by
  constructor
  · intro e1 e2 h
    cases e1
    cases e2
    cases h
    rfl
  · intro ne
    rfl

/-- C8 witness: the amended statement at a concrete message and native
error. -/
theorem C8_message_only_witness :
    ((⟨"boom"⟩ : GoError) = ⟨"boom"⟩)
    ∧ newError (some (nativeToC ⟨ErrorKind.handleClosed, "boom"⟩)) = some ⟨"boom"⟩ :=
  ⟨C8_message_only.1 ⟨"boom"⟩ ⟨"boom"⟩ rfl,
    C8_message_only.2 ⟨ErrorKind.handleClosed, "boom"⟩⟩

/-- C9: batch partitioning is transparent: for every handle state, input list
and per-input model function, `Embed` with batch size 1 and `Embed` with batch
size `len(inputs)` against the spec-modelled backend produce identical
outcomes (on the degenerate empty list both calls panic identically before
reaching the backend). -/
theorem C9_batch_transparent (te : TextEmbedding) (texts : List String)
    (f : String → List Scalar) :
    te.Embed texts 1 (specNativeTextEmbed f)
      = te.Embed texts texts.length (specNativeTextEmbed f) := by
  obtain ⟨oh⟩ := te
  cases oh with
  | none => rfl
  | some hv =>
    by_cases he : texts.isEmpty = true
    · simp [TextEmbedding.Embed, he]
    · simp [TextEmbedding.Embed, he, specNativeTextEmbed, specBatchedMap_eq_map]

/-- C10 counterexample: when the native constructor hands back a non-null
handle together with a non-null error pointer, the Go constructor returns a
nil error even though the native error pointer is non-null, so the claimed
biconditional between a nil Go error and a null native error pointer fails. -/
theorem C10_error_iff_counterexample :
    ¬ (((NewTextEmbedding (some 0) (some ⟨"spurious"⟩)).2 = none)
      ↔ ((some (⟨"spurious"⟩ : CError)) = none)) := by
  intro h
  exact Option.noConfusion (h.1 rfl)

/-- C10 (amended): for each of the four constructors, the returned Go error is
nil exactly when the native handle is non-null or the native error pointer is
null (the error output is only consulted on a null handle); in particular a
null handle together with a null error pointer yields `(nil, nil)`. -/
theorem C10_constructor_errors (h : Option Nat) (c : Option CError) :
    ((NewTextEmbedding h c).2 = none ↔ (h ≠ none ∨ c = none))
    ∧ ((NewSparseTextEmbedding h c).2 = none ↔ (h ≠ none ∨ c = none))
    ∧ ((NewImageEmbedding h c).2 = none ↔ (h ≠ none ∨ c = none))
    ∧ ((NewTextRerank h c).2 = none ↔ (h ≠ none ∨ c = none))
    ∧ NewTextEmbedding none none = (none, none)
    ∧ NewSparseTextEmbedding none none = (none, none)
    ∧ NewImageEmbedding none none = (none, none)
    ∧ NewTextRerank none none = (none, none) := by
  cases h <;> cases c <;>
    simp [NewTextEmbedding, NewSparseTextEmbedding, NewImageEmbedding,
      NewTextRerank, newError]

/-- C10 witness: the null-handle null-error corner returns `(nil, nil)`. -/
theorem C10_constructor_errors_witness :
    NewTextEmbedding none none = (none, none) :=
  (C10_constructor_errors none none).2.2.2.2.1
